import Mathlib

/-!
Verification of the EDIFACT parsing, escaping and dispatch logic of the
looksocial/edifact-examples repository.

Strings are modelled as `List Char`.  The Go standard-library string
operations the code relies on (`strings.Split`, `strings.Join`,
`strings.TrimSuffix`, `strings.ReplaceAll`) are modelled faithfully,
including the documented corner cases for empty separators:
`Split(s, "")` splits after every character and `Split("", "")` returns
an empty slice; `Replace(s, "", new)` inserts `new` at every character
boundary and at the start.

The fuel-based recursions below are structural (fuel = length of the
scanned string), so every definition computes by `rfl`/`decide`.
-/

abbrev Str := List Char

namespace GoStrings

/-- Scanner for Go `strings.Split` with a nonempty separator `d :: ds`:
walk the string left to right; at the first position where the separator
is a prefix, emit the accumulated token and continue after the separator
(leftmost, non-overlapping matches).  `fuel` bounds the recursion; any
`fuel ≥ s.length` gives the real result. -/
def splitF : Nat → Char → Str → Str → List Str
  | _, _, _, [] => [[]]
  | 0, _, _, _ :: _ => [[]]
  | fuel + 1, d, ds, c :: rest =>
    if (d :: ds).isPrefixOf (c :: rest) then
      [] :: splitF fuel d ds (rest.drop ds.length)
    else
      match splitF fuel d ds rest with
      | [] => [[c]]
      | t :: ts => (c :: t) :: ts

/-- Model of Go `strings.Split s sep`.  For an empty separator Go
explodes the string into one-character strings (empty slice for an
empty string); otherwise it cuts at every occurrence of `sep`. -/
def Split (s sep : Str) : List Str :=
  match sep with
  | [] => s.map (fun c => [c])
  | d :: ds => splitF s.length d ds s

/-- Model of Go `strings.Join elems sep`. -/
def Join (elems : List Str) (sep : Str) : Str :=
  match elems with
  | [] => []
  | [x] => x
  | x :: y :: rest => x ++ sep ++ Join (y :: rest) sep

/-- Model of Go `strings.TrimSuffix s suffix`. -/
def TrimSuffix (s suffix : Str) : Str :=
  if suffix.isSuffixOf s then s.take (s.length - suffix.length) else s

/-- Scanner for Go `strings.Replace`/`strings.ReplaceAll` with a nonempty
pattern `o :: os`: replace leftmost non-overlapping occurrences of the
pattern by `new`. -/
def replaceF : Nat → Char → Str → Str → Str → Str
  | _, _, _, _, [] => []
  | 0, _, _, _, s => s
  | fuel + 1, o, os, new, c :: rest =>
    if (o :: os).isPrefixOf (c :: rest) then
      new ++ replaceF fuel o os new (rest.drop os.length)
    else
      c :: replaceF fuel o os new rest

/-- Model of Go `strings.ReplaceAll s old new`. -/
def ReplaceAll (s old new : Str) : Str :=
  match old with
  | [] => new ++ (s.map (fun c => c :: new)).flatten
  | o :: os => replaceF s.length o os new s

/-- The split scanner never returns an empty list of tokens. -/
theorem splitF_ne_nil (fuel : Nat) (d : Char) (ds s : Str) :
    splitF fuel d ds s ≠ [] := by
  match fuel, s with
  | _, [] => simp [splitF]
  | 0, _ :: _ => simp [splitF]
  | fuel + 1, c :: rest =>
    simp only [splitF]
    split
    · simp
    · split <;> simp

/-- Splitting at a nonempty separator always yields at least one token. -/
theorem Split_ne_nil (s : Str) (d : Char) (ds : Str) :
    Split s (d :: ds) ≠ [] := splitF_ne_nil _ _ _ _

/-- The split scanner does not depend on the fuel, as long as the fuel
covers the length of the scanned string. -/
theorem splitF_fuel (d : Char) (ds : Str) :
    ∀ fuel fuel' s, s.length ≤ fuel → s.length ≤ fuel' →
      splitF fuel d ds s = splitF fuel' d ds s := by
  intro fuel
  induction fuel with
  | zero =>
    intro fuel' s hs _
    have hnil : s = [] := List.eq_nil_of_length_eq_zero (Nat.le_zero.mp hs)
    subst hnil
    simp [splitF]
  | succ fuel ih =>
    intro fuel' s hs hs'
    match s with
    | [] => simp [splitF]
    | c :: rest =>
      match fuel' with
      | 0 => simp at hs'
      | fuel' + 1 =>
        simp only [List.length_cons] at hs hs'
        simp only [splitF]
        by_cases hp : (d :: ds).isPrefixOf (c :: rest) = true
        · rw [if_pos hp, if_pos hp]
          have hlen : (rest.drop ds.length).length ≤ fuel := by
            simp only [List.length_drop]; omega
          have hlen' : (rest.drop ds.length).length ≤ fuel' := by
            simp only [List.length_drop]; omega
          rw [ih fuel' _ hlen hlen']
        · rw [if_neg hp, if_neg hp]
          rw [ih fuel' rest (by omega) (by omega)]

/-- Joining a nonempty tail prepends one separator. -/
theorem Join_cons_of_ne_nil (x : Str) (L : List Str) (sep : Str) (h : L ≠ []) :
    Join (x :: L) sep = x ++ sep ++ Join L sep := by
  match L with
  | [] => exact absurd rfl h
  | y :: rest => rfl

/-- Pushing a character into the head token of a nonempty token list
commutes with joining. -/
theorem Join_cons_head (c : Char) (t : Str) (ts : List Str) (sep : Str) :
    Join ((c :: t) :: ts) sep = c :: Join (t :: ts) sep := by
  match ts with
  | [] => rfl
  | u :: us => simp [Join]

/-- Joining the tokens produced by the split scanner with the separator
reconstructs the scanned string. -/
theorem Join_splitF (d : Char) (ds : Str) :
    ∀ fuel s, s.length ≤ fuel → Join (splitF fuel d ds s) (d :: ds) = s := by
  intro fuel
  induction fuel with
  | zero =>
    intro s hs
    have hnil : s = [] := List.eq_nil_of_length_eq_zero (Nat.le_zero.mp hs)
    subst hnil
    simp [splitF, Join]
  | succ fuel ih =>
    intro s hs
    match s with
    | [] => simp [splitF, Join]
    | c :: rest =>
      simp only [List.length_cons] at hs
      simp only [splitF]
      by_cases hp : (d :: ds).isPrefixOf (c :: rest) = true
      · rw [if_pos hp]
        have hpre : (d :: ds) <+: (c :: rest) := List.isPrefixOf_iff_prefix.mp hp
        have htake : (d :: ds) = (c :: rest).take (d :: ds).length :=
          List.prefix_iff_eq_take.mp hpre
        have hlen : (rest.drop ds.length).length ≤ fuel := by
          simp only [List.length_drop]; omega
        rw [Join_cons_of_ne_nil _ _ _ (splitF_ne_nil _ _ _ _), ih _ hlen]
        have hsplit : (c :: rest).take (d :: ds).length ++
            (c :: rest).drop (d :: ds).length = c :: rest := List.take_append_drop _ _
        rw [← htake] at hsplit
        simpa [List.drop_succ_cons] using hsplit
      · rw [if_neg hp]
        cases hrec : splitF fuel d ds rest with
        | nil => exact absurd hrec (splitF_ne_nil _ _ _ _)
        | cons t ts =>
          have hjoin := ih rest (by omega)
          rw [hrec] at hjoin
          show Join ((c :: t) :: ts) (d :: ds) = c :: rest
          rw [Join_cons_head, hjoin]

/-- Joining the one-character explosion of a string reconstructs it. -/
theorem Join_explode : ∀ s : Str, Join (s.map (fun c => [c])) [] = s
  | [] => rfl
  | [_] => rfl
  | c :: r :: rs => by
    have ih := Join_explode (r :: rs)
    simp only [List.map_cons] at ih ⊢
    rw [Join_cons_of_ne_nil _ _ _ (by simp)]
    simp [ih]

/-- Go invariant behind round-trip claims: splitting a string at a
separator and re-joining the parts with the same separator is the
identity, for every separator including the empty one. -/
theorem Join_Split (s sep : Str) : Join (Split s sep) sep = s := by
  match sep with
  | [] => exact Join_explode s
  | d :: ds => exact Join_splitF d ds s.length s (Nat.le_refl _)

/-- A single-character separator occurring in the scanned string makes
the split scanner produce at least two tokens. -/
theorem two_le_splitF_of_mem (d : Char) :
    ∀ fuel s, s.length ≤ fuel → d ∈ s → 2 ≤ (splitF fuel d [] s).length := by
  intro fuel
  induction fuel with
  | zero =>
    intro s hs hmem
    have hnil : s = [] := List.eq_nil_of_length_eq_zero (Nat.le_zero.mp hs)
    subst hnil
    simp at hmem
  | succ fuel ih =>
    intro s hs hmem
    match s with
    | [] => simp at hmem
    | c :: rest =>
      simp only [List.length_cons] at hs
      simp only [splitF]
      by_cases hp : ([d]).isPrefixOf (c :: rest) = true
      · rw [if_pos hp]
        have h1 : 0 < (splitF fuel d [] (rest.drop ([] : Str).length)).length :=
          List.length_pos.mpr (splitF_ne_nil _ _ _ _)
        simp only [List.length_cons]
        omega
      · rw [if_neg hp]
        have hdc : ¬ d = c := by
          intro he
          subst he
          simp [List.isPrefixOf] at hp
        have hrest : d ∈ rest := by
          rcases List.mem_cons.mp hmem with h | h
          · exact absurd h hdc
          · exact h
        have h2 := ih rest (by omega) hrest
        cases hrec : splitF fuel d [] rest with
        | nil => exact absurd hrec (splitF_ne_nil _ _ _ _)
        | cons t ts =>
          rw [hrec] at h2
          show 2 ≤ ((c :: t) :: ts).length
          simpa using h2

/-- Splitting at a single-character separator that occurs in the string
yields at least two tokens. -/
theorem two_le_Split_of_mem (d : Char) (s : Str) (h : d ∈ s) :
    2 ≤ (Split s [d]).length :=
  two_le_splitF_of_mem d s.length s (Nat.le_refl _) h

/-- Replacing a single-character pattern keeps every character that is
either different from the pattern or also present in the replacement. -/
theorem mem_replaceF_single (o : Char) (new : Str) (a : Char)
    (ha : a = o → a ∈ new) :
    ∀ fuel s, s.length ≤ fuel → a ∈ s → a ∈ replaceF fuel o [] new s := by
  intro fuel
  induction fuel with
  | zero =>
    intro s hs hmem
    have hnil : s = [] := List.eq_nil_of_length_eq_zero (Nat.le_zero.mp hs)
    subst hnil
    simp at hmem
  | succ fuel ih =>
    intro s hs hmem
    match s with
    | [] => simp at hmem
    | c :: rest =>
      simp only [List.length_cons] at hs
      simp only [replaceF]
      by_cases hp : ([o]).isPrefixOf (c :: rest) = true
      · rw [if_pos hp]
        have hoc : o = c := by
          simpa [List.isPrefixOf] using hp
        rcases List.mem_cons.mp hmem with h | h
        · exact List.mem_append.mpr (Or.inl (ha (by rw [h, hoc])))
        · refine List.mem_append.mpr (Or.inr (ih (rest.drop ([] : Str).length)
            (by simpa using Nat.le_of_succ_le_succ hs) ?_))
          simpa using h
      · rw [if_neg hp]
        rcases List.mem_cons.mp hmem with h | h
        · exact List.mem_cons.mpr (Or.inl h)
        · exact List.mem_cons.mpr (Or.inr (ih rest (by omega) h))

/-- `ReplaceAll` with a single-character pattern keeps every character
that is either different from the pattern or present in the
replacement. -/
theorem mem_ReplaceAll_single (s : Str) (o : Char) (new : Str) (a : Char)
    (ha : a = o → a ∈ new) (h : a ∈ s) : a ∈ ReplaceAll s [o] new :=
  mem_replaceF_single o new a ha s.length s (Nat.le_refl _) h

/-- Splitting at a single-character separator that does not occur in a
leading fragment first emits that fragment. -/
theorem splitF_sepfree (d : Char) :
    ∀ (xs ys : Str) fuel, (xs ++ d :: ys).length ≤ fuel → d ∉ xs →
      splitF fuel d [] (xs ++ d :: ys) = xs :: splitF ys.length d [] ys := by
  intro xs
  induction xs with
  | nil =>
    intro ys fuel hlen _
    match fuel with
    | 0 => simp at hlen
    | fuel + 1 =>
      simp only [List.nil_append, List.length_cons] at hlen ⊢
      simp only [splitF]
      have hp : ([d]).isPrefixOf (d :: ys) = true := by simp [List.isPrefixOf]
      rw [if_pos hp]
      have hfuel : splitF fuel d [] (ys.drop ([] : Str).length) =
          splitF ys.length d [] ys := by
        simp only [List.length_nil, List.drop_zero]
        exact splitF_fuel d [] fuel ys.length ys (by omega) (Nat.le_refl _)
      rw [hfuel]
  | cons x xs ih =>
    intro ys fuel hlen hx
    match fuel with
    | 0 => simp at hlen
    | fuel + 1 =>
      have hdx : ¬ d = x := by
        intro he
        exact hx (by rw [he]; exact List.mem_cons_self _ _)
      simp only [List.cons_append, List.length_cons] at hlen ⊢
      simp only [splitF]
      have hp : ¬ ([d]).isPrefixOf (x :: (xs ++ d :: ys)) = true := by
        simp [List.isPrefixOf, hdx]
      rw [if_neg hp]
      have hxs : d ∉ xs := fun h => hx (List.mem_cons_of_mem _ h)
      rw [ih ys fuel (by omega) hxs]

/-- Two adjacent single-character separators after a separator-free
fragment produce the fragment, then an empty token, then the split of
the remainder: empty elements are preserved, not merged. -/
theorem Split_double_sep (d : Char) (s1 s2 : Str) (h : d ∉ s1) :
    Split (s1 ++ d :: d :: s2) [d] = s1 :: [] :: Split s2 [d] := by
  simp only [Split]
  rw [splitF_sepfree d s1 (d :: s2) _ (Nat.le_refl _) h]
  have h2 : splitF (d :: s2).length d [] ([] ++ d :: s2) =
      ([] : Str) :: splitF s2.length d [] s2 :=
    splitF_sepfree d [] s2 (d :: s2).length (by simp) (by simp)
  simpa using h2

end GoStrings

/-- The apostrophe character, the standard EDIFACT segment terminator. -/
def apos : Char := Char.ofNat 39

/-!
Embedding of `course_fundamental/lesson1/main.go`: delimiter set, basic
segment type, `ParseSegment`, and the escape/unescape helpers.
-/

namespace Lesson1

/-- Go struct `EDIFACTDelimiters` (course_fundamental/lesson1/main.go).
The fields are Go strings, so they are arbitrary `Str`s here. -/
structure EDIFACTDelimiters where
  SegmentTerminator : Str
  DataElementSeparator : Str
  ComponentSeparator : Str
  ReleaseCharacter : Str
deriving DecidableEq

/-- Go struct `EDIFACTSegment` (course_fundamental/lesson1/main.go). -/
structure EDIFACTSegment where
  Tag : Str
  Elements : List Str
  Delimiters : EDIFACTDelimiters
deriving DecidableEq

/-- The standard EDIFACT delimiters used throughout the repository:
terminator `'`, element separator `+`, component separator `:`,
release (escape) character `?`. -/
def stdDelimiters : EDIFACTDelimiters :=
  { SegmentTerminator := [apos]
    DataElementSeparator := ['+']
    ComponentSeparator := [':']
    ReleaseCharacter := ['?'] }

/-- Go function `ParseSegment` (course_fundamental/lesson1/main.go,
lines 55-74): trim the segment terminator, split at the data element
separator, fail with "empty segment" when the split has no parts,
otherwise the first part is the tag and the remaining parts are the
elements, stored verbatim.  `none` models the error return. -/
def ParseSegment (segmentStr : Str) (delimiters : EDIFACTDelimiters) :
    Option EDIFACTSegment :=
  let trimmed := GoStrings.TrimSuffix segmentStr delimiters.SegmentTerminator
  match GoStrings.Split trimmed delimiters.DataElementSeparator with
  | [] => none
  | tag :: rest => some { Tag := tag, Elements := rest, Delimiters := delimiters }

/-- Go function `EscapeSpecialCharacters` (course_fundamental/lesson1/
main.go, lines 77-84): four sequential `strings.ReplaceAll` calls, the
release character first, then element separator, component separator,
segment terminator. -/
def EscapeSpecialCharacters (data : Str) (d : EDIFACTDelimiters) : Str :=
  GoStrings.ReplaceAll
    (GoStrings.ReplaceAll
      (GoStrings.ReplaceAll
        (GoStrings.ReplaceAll data d.ReleaseCharacter
          (d.ReleaseCharacter ++ d.ReleaseCharacter))
        d.DataElementSeparator (d.ReleaseCharacter ++ d.DataElementSeparator))
      d.ComponentSeparator (d.ReleaseCharacter ++ d.ComponentSeparator))
    d.SegmentTerminator (d.ReleaseCharacter ++ d.SegmentTerminator)

/-- Go function `UnescapeSpecialCharacters` (course_fundamental/lesson1/
main.go, lines 87-94): four sequential `strings.ReplaceAll` calls
removing the release character from each escape pair, in the reverse
order of the escaping. -/
def UnescapeSpecialCharacters (data : Str) (d : EDIFACTDelimiters) : Str :=
  GoStrings.ReplaceAll
    (GoStrings.ReplaceAll
      (GoStrings.ReplaceAll
        (GoStrings.ReplaceAll data (d.ReleaseCharacter ++ d.SegmentTerminator)
          d.SegmentTerminator)
        (d.ReleaseCharacter ++ d.ComponentSeparator) d.ComponentSeparator)
      (d.ReleaseCharacter ++ d.DataElementSeparator) d.DataElementSeparator)
    (d.ReleaseCharacter ++ d.ReleaseCharacter) d.ReleaseCharacter

/-- The escape → tokenize → unescape pipeline the spec describes:
escape a string, split the escaped text at the data element separator
exactly as `ParseSegment` does when splitting a segment into elements,
then unescape every resulting token. -/
def escapeTokenizeUnescape (s : Str) (d : EDIFACTDelimiters) : List Str :=
  (GoStrings.Split (EscapeSpecialCharacters s d) d.DataElementSeparator).map
    (fun t => UnescapeSpecialCharacters t d)

end Lesson1

/-!
Embedding of the composite-element helpers of `src/unnamed/part_011`.
Its `EDIFACTDelimiters` struct is identical to lesson 1's, so it is
reused here.
-/

namespace Part011

/-- Go struct `CompositeElement` (src/unnamed/part_011). -/
structure CompositeElement where
  Components : List Str
  Qualifier : Str
  Value : Str
  Format : Str
deriving DecidableEq

/-- Go function `ParseCompositeElement` (src/unnamed/part_011, lines
25-44): split at the component separator, store all components, and
fill `Qualifier`/`Value`/`Format` from the first three components when
present (Go zero value `""` otherwise). -/
def ParseCompositeElement (elementStr : Str)
    (delimiters : Lesson1.EDIFACTDelimiters) : CompositeElement :=
  let components := GoStrings.Split elementStr delimiters.ComponentSeparator
  { Components := components
    Qualifier := if 1 ≤ components.length then components.getD 0 [] else []
    Value := if 2 ≤ components.length then components.getD 1 [] else []
    Format := if 3 ≤ components.length then components.getD 2 [] else [] }

/-- Go method `CompositeElement.ToString` (src/unnamed/part_011, lines
68-70): join the stored components with the component separator. -/
def CompositeElement.ToString (c : CompositeElement)
    (delimiters : Lesson1.EDIFACTDelimiters) : Str :=
  GoStrings.Join c.Components delimiters.ComponentSeparator

end Part011

/-!
Embedding of the handler dispatch of `course_advance/lesson2/main.go`.
A Go `error` result is modelled as `Option Str` (`none` = nil error,
`some e` = the error `e`).  The `sync.RWMutex` field and the
`fmt.Printf` logging have no effect on the returned value and are
omitted; the Go map `handlers` is modelled as a lookup function, whose
assignment `md.handlers[msgType] = handler` overwrites any previous
entry for the same key, exactly as in Go.
-/

namespace Lesson2

/-- Go struct `Segment` (course_advance/lesson2/main.go). -/
structure Segment where
  Tag : Str
  Elements : List Str

/-- Go struct `EDIFACTMessage` (course_advance/lesson2/main.go). -/
structure EDIFACTMessage where
  MessageType : Str
  Segments : List Segment
  RawContent : Str

/-- Go interface `MessageHandler` (course_advance/lesson2/main.go):
`Process` returns an error (modelled `Option Str`) and `GetMessageType`
a name.  A concrete handler is a pair of these behaviours. -/
structure MessageHandler where
  Process : EDIFACTMessage → Option Str
  GetMessageType : Str

/-- Go struct `GenericHandler` (course_advance/lesson2/main.go, lines
216-227): `Process` only prints and returns `nil`, so it succeeds on
every message. -/
def GenericHandler : MessageHandler :=
  { Process := fun _ => none
    GetMessageType := "GENERIC".toList }

/-- Go struct `MessageDetector` (course_advance/lesson2/main.go):
a map from message type to handler plus a fallback handler. -/
structure MessageDetector where
  handlers : Str → Option MessageHandler
  fallback : MessageHandler

/-- Go function `NewMessageDetector` (course_advance/lesson2/main.go):
empty handler map, fallback `GenericHandler`. -/
def NewMessageDetector : MessageDetector :=
  { handlers := fun _ => none
    fallback := GenericHandler }

/-- Go method `MessageDetector.RegisterHandler` (course_advance/lesson2/
main.go, lines 48-52): `md.handlers[msgType] = handler`, a map
assignment that replaces any handler previously registered for the same
message type. -/
def RegisterHandler (md : MessageDetector) (msgType : Str)
    (handler : MessageHandler) : MessageDetector :=
  { md with handlers := fun t => if t = msgType then some handler else md.handlers t }

/-- Go method `MessageDetector.DetectAndRoute` (course_advance/lesson2/
main.go, lines 55-67): look the message type up in the handler map; on
a hit return that handler's `Process` result, otherwise return the
fallback handler's `Process` result. -/
def DetectAndRoute (md : MessageDetector) (message : EDIFACTMessage) :
    Option Str :=
  match md.handlers message.MessageType with
  | some handler => handler.Process message
  | none => md.fallback.Process message

/-- A concrete ORDERS message used to instantiate the dispatch
theorems. -/
def ordersMessage : EDIFACTMessage :=
  { MessageType := "ORDERS".toList
    Segments := []
    RawContent := [] }

/-- A concrete handler for ORDERS whose `Process` fails with the error
"handler-one", so that its invocation is observable. -/
def handlerOne : MessageHandler :=
  { Process := fun _ => some ("handler-one".toList)
    GetMessageType := "ORDERS".toList }

/-- A second concrete handler for ORDERS whose `Process` fails with the
error "handler-two". -/
def handlerTwo : MessageHandler :=
  { Process := fun _ => some ("handler-two".toList)
    GetMessageType := "ORDERS".toList }

end Lesson2

/-!
Embedding of the service-segment extraction of
`course_fundamental/lesson6/main.go`.  The `Timestamp` field of
`ServiceSegmentInfo` is set from the wall clock (`time.Now()`) in Go
and plays no role in any data extraction; it is omitted from the model.
-/

namespace Lesson6

/-- Go struct `Segment` (course_fundamental/lesson6/main.go). -/
structure Segment where
  Tag : Str
  Elements : List Str
  Position : Nat
  Raw : Str
deriving DecidableEq

/-- Go struct `ServiceSegmentInfo` (course_fundamental/lesson6/main.go,
lines 380-396), with Go zero values as field defaults. -/
structure ServiceSegmentInfo where
  Tag : Str := []
  Elements : List Str := []
  Position : Nat := 0
  MessageType : Str := []
  ReferenceNumber : Str := []
  SegmentCount : Str := []
  SyntaxIdentifier : Str := []
  SenderID : Str := []
  ReceiverID : Str := []
  DateTime : Str := []
  ControlReference : Str := []
  MessageCount : Str := []
  Release : Str := []
  Version : Str := []
deriving DecidableEq

/-- Go method `ServiceSegmentHandler.extractServiceSegmentInfo`
(course_fundamental/lesson6/main.go, lines 245-304).  For a UNH
segment with at least two elements it splits the second element at ":"
and stores component 0 in `MessageType` and, when there are at least
four components, component 2 in `Release` and component 3 in `Version`;
the UNT/UNB/UNZ branches copy elements positionally. -/
def extractServiceSegmentInfo (segment : Segment) : ServiceSegmentInfo :=
  let info : ServiceSegmentInfo :=
    { Tag := segment.Tag, Elements := segment.Elements, Position := segment.Position }
  if segment.Tag = "UNH".toList then
    let info :=
      if 2 ≤ segment.Elements.length then
        let msgTypeParts := GoStrings.Split (segment.Elements.getD 1 []) [':']
        let info :=
          if 1 ≤ msgTypeParts.length then
            { info with MessageType := msgTypeParts.getD 0 [] }
          else info
        if 4 ≤ msgTypeParts.length then
          { info with Release := msgTypeParts.getD 2 []
                      Version := msgTypeParts.getD 3 [] }
        else info
      else info
    if 1 ≤ segment.Elements.length then
      { info with ReferenceNumber := segment.Elements.getD 0 [] }
    else info
  else if segment.Tag = "UNT".toList then
    let info :=
      if 1 ≤ segment.Elements.length then
        { info with SegmentCount := segment.Elements.getD 0 [] }
      else info
    if 2 ≤ segment.Elements.length then
      { info with ReferenceNumber := segment.Elements.getD 1 [] }
    else info
  else if segment.Tag = "UNB".toList then
    let info :=
      if 1 ≤ segment.Elements.length then
        { info with SyntaxIdentifier := segment.Elements.getD 0 [] }
      else info
    let info :=
      if 3 ≤ segment.Elements.length then
        { info with SenderID := segment.Elements.getD 2 [] }
      else info
    let info :=
      if 4 ≤ segment.Elements.length then
        { info with ReceiverID := segment.Elements.getD 3 [] }
      else info
    let info :=
      if 5 ≤ segment.Elements.length then
        { info with DateTime := segment.Elements.getD 4 [] }
      else info
    if 6 ≤ segment.Elements.length then
      { info with ControlReference := segment.Elements.getD 5 [] }
    else info
  else if segment.Tag = "UNZ".toList then
    let info :=
      if 1 ≤ segment.Elements.length then
        { info with MessageCount := segment.Elements.getD 0 [] }
      else info
    if 2 ≤ segment.Elements.length then
      { info with ControlReference := segment.Elements.getD 1 [] }
    else info
  else info

end Lesson6

/-!
Embedding of the message-level parser of `src/unnamed/part_014`
(`ParseEDIFACTMessage`, lines 540-576).  The delimiters `'`, `+` and
`:` are hard-coded there.
-/

namespace Part014

/-- Go struct `Segment` (src/unnamed/part_014). -/
structure Segment where
  Tag : Str
  Elements : List Str
  Position : Nat
deriving DecidableEq

/-- Go struct `SegmentGroup` (src/unnamed/part_014); never populated by
`ParseEDIFACTMessage`. -/
structure SegmentGroup where
  Name : Str
  Segments : List Segment
  Repeat : Nat
deriving DecidableEq

/-- Go struct `EDIFACTMessage` (src/unnamed/part_014). -/
structure EDIFACTMessage where
  MessageType : Str
  Segments : List Segment
  Groups : List SegmentGroup
  RawContent : Str
deriving DecidableEq

/-- One iteration of the `for i, segmentStr := range segments` loop of
`ParseEDIFACTMessage`: skip empty segment strings, split the rest at
`+` into tag and elements, append the segment, and for a UNH segment
with more than one element set the message type from the first `:`
component of its second element. -/
def processSegment (message : EDIFACTMessage) (p : Nat × Str) : EDIFACTMessage :=
  if p.2 = [] then message
  else
    match GoStrings.Split p.2 ['+'] with
    | [] => message
    | tag :: elems =>
      let message := { message with
        Segments := message.Segments ++ [{ Tag := tag, Elements := elems, Position := p.1 }] }
      if tag = "UNH".toList ∧ 1 < elems.length then
        match GoStrings.Split (elems.getD 1 []) [':'] with
        | [] => message
        | mt :: _ => { message with MessageType := mt }
      else message

/-- Go function `ParseEDIFACTMessage` (src/unnamed/part_014, lines
540-576): split the raw content at `'` and process each indexed
segment string in order.  The function returns a message value and has
no error result. -/
def ParseEDIFACTMessage (rawContent : Str) : EDIFACTMessage :=
  (GoStrings.Split rawContent [apos]).enum.foldl processSegment
    { MessageType := []
      Segments := []
      Groups := []
      RawContent := rawContent }

end Part014

/-!
Claim theorems.
-/

/-- Claim C10: for every string and every delimiter configuration,
parsing a composite element and rendering it back with `ToString`
returns the original string unchanged — splitting at the component
separator and re-joining the stored components is the identity, even
for empty, leading-empty, or trailing-empty components. -/
theorem C10_parse_composite_tostring_roundtrip (elementStr : Str)
    (delimiters : Lesson1.EDIFACTDelimiters) :
    (Part011.ParseCompositeElement elementStr delimiters).ToString delimiters
      = elementStr := by
  simp [Part011.ParseCompositeElement, Part011.CompositeElement.ToString,
    GoStrings.Join_Split]

/-- Claim C10 witness: the round-trip at a concrete composite element
with empty components. -/
theorem C10_witness :
    (Part011.ParseCompositeElement (":137::102".toList)
      Lesson1.stdDelimiters).ToString Lesson1.stdDelimiters =
      (":137::102".toList) :=
  C10_parse_composite_tostring_roundtrip (":137::102".toList) Lesson1.stdDelimiters

/-- Claim C5: parsing `NAD+BY+++NAME'` with the default delimiters
yields tag `NAD` and exactly the four elements `BY`, ``, ``, `NAME` in
order — empty elements are present, not omitted — and in general two
consecutive element separators after a separator-free fragment yield a
preserved empty element. -/
theorem C5_empty_elements_preserved :
    (Lesson1.ParseSegment ("NAD+BY+++NAME".toList ++ [apos]) Lesson1.stdDelimiters =
      some { Tag := "NAD".toList
             Elements := ["BY".toList, [], [], "NAME".toList]
             Delimiters := Lesson1.stdDelimiters }) ∧
    ∀ (s1 s2 : Str), '+' ∉ s1 →
      GoStrings.Split (s1 ++ '+' :: '+' :: s2) ['+'] =
        s1 :: [] :: GoStrings.Split s2 ['+'] := by
  constructor
  · decide
  · intro s1 s2 h
    exact GoStrings.Split_double_sep '+' s1 s2 h

/-- Claim C5 witness: the general conjunct at a concrete fragment. -/
theorem C5_witness :
    '+' ∉ ("AB".toList) ∧
    GoStrings.Split ("AB".toList ++ '+' :: '+' :: "CD".toList) ['+'] =
      ["AB".toList, [], "CD".toList] := by
  refine ⟨by decide, ?_⟩
  rw [C5_empty_elements_preserved.2 ("AB".toList) ("CD".toList) (by decide)]
  decide

/-- Claim C7 counterexample: tokenizing the empty raw input does not
fail.  `ParseSegment` returns a segment (with empty tag and no
elements) rather than an error, and `ParseEDIFACTMessage` — which has
no error result at all — returns a message with an empty segment list,
i.e. the parse silently succeeds. -/
theorem C7_counterexample :
    Lesson1.ParseSegment [] Lesson1.stdDelimiters =
      some { Tag := [], Elements := [], Delimiters := Lesson1.stdDelimiters } ∧
    Part014.ParseEDIFACTMessage [] =
      { MessageType := [], Segments := [], Groups := [], RawContent := [] } := by
  exact ⟨rfl, rfl⟩

/-- Claim C7 amended: parsing empty raw input silently succeeds —
`ParseEDIFACTMessage` returns a message with no segments and an empty
message type, and `ParseSegment` returns a non-error segment. -/
theorem C7_empty_input_succeeds :
    (Part014.ParseEDIFACTMessage []).Segments = [] ∧
    (Part014.ParseEDIFACTMessage []).MessageType = [] ∧
    (Lesson1.ParseSegment [] Lesson1.stdDelimiters).isSome = true := by
  exact ⟨rfl, rfl, rfl⟩

/-- Claim C9 counterexample: with an all-empty delimiter configuration
(Go zero values) and empty input, `strings.Split` returns an empty
slice, so `ParseSegment`'s error branch is reached and it returns the
"empty segment" error (`none`), refuting the claim for *every*
delimiter configuration. -/
theorem C9_counterexample :
    Lesson1.ParseSegment []
      { SegmentTerminator := [], DataElementSeparator := [],
        ComponentSeparator := [], ReleaseCharacter := [] } = none := rfl

/-- Claim C9 amended: whenever the data element separator is nonempty
(as in every configuration the repository uses), `ParseSegment` returns
a segment and never its error: splitting at a nonempty separator yields
at least one part. -/
theorem C9_parse_segment_total (s : Str) (d : Lesson1.EDIFACTDelimiters)
    (h : d.DataElementSeparator ≠ []) :
    (Lesson1.ParseSegment s d).isSome = true := by
  obtain ⟨e, es, hsep⟩ := List.exists_cons_of_ne_nil h
  simp only [Lesson1.ParseSegment]
  cases hres : GoStrings.Split (GoStrings.TrimSuffix s d.SegmentTerminator)
      d.DataElementSeparator with
  | nil =>
    rw [hsep] at hres
    exact absurd hres (GoStrings.Split_ne_nil _ _ _)
  | cons t ts => simp [hres]

/-- Claim C9 witness: `ParseSegment` succeeds on a concrete input under
the standard delimiters, whose element separator is nonempty. -/
theorem C9_witness :
    Lesson1.stdDelimiters.DataElementSeparator ≠ [] ∧
    (Lesson1.ParseSegment ("QTY+12:100:PCE".toList ++ [apos])
      Lesson1.stdDelimiters).isSome = true :=
  ⟨by decide, C9_parse_segment_total ("QTY+12:100:PCE".toList ++ [apos])
    Lesson1.stdDelimiters (by decide)⟩

/-- Claim C6 counterexample: the tokenizer does not unescape before
storing tokens.  Parsing `FTX+??'` stores the element value `??`
verbatim — the doubled escape character is *not* collapsed to a single
`?` in the stored element. -/
theorem C6_counterexample :
    (Lesson1.ParseSegment ("FTX+??".toList ++ [apos]) Lesson1.stdDelimiters).map
      Lesson1.EDIFACTSegment.Elements = some [['?', '?']] ∧
    (['?', '?'] : Str) ≠ ['?'] := by
  exact ⟨by decide, by decide⟩

/-- Claim C6 amended: `ParseSegment` stores every token verbatim — tag
and elements are exactly the parts of the raw split, with no
unescaping applied — and collapsing a doubled escape character to a
single one happens only in the separate `UnescapeSpecialCharacters`
helper. -/
theorem C6_tokens_stored_verbatim :
    (∀ (s : Str) (d : Lesson1.EDIFACTDelimiters) (seg : Lesson1.EDIFACTSegment),
      Lesson1.ParseSegment s d = some seg →
        seg.Tag :: seg.Elements =
          GoStrings.Split (GoStrings.TrimSuffix s d.SegmentTerminator)
            d.DataElementSeparator) ∧
    Lesson1.UnescapeSpecialCharacters ['?', '?'] Lesson1.stdDelimiters = ['?'] := by
  constructor
  · intro s d seg h
    simp only [Lesson1.ParseSegment] at h
    cases hres : GoStrings.Split (GoStrings.TrimSuffix s d.SegmentTerminator)
        d.DataElementSeparator with
    | nil => rw [hres] at h; simp at h
    | cons t ts =>
      rw [hres] at h
      simp only [Option.some.injEq] at h
      rw [← h]
  · decide

/-- Claim C6 witness: the verbatim-storage conjunct instantiated at the
concrete segment parsed from `FTX+??'`. -/
theorem C6_witness :
    ({ Tag := "FTX".toList, Elements := [['?', '?']],
       Delimiters := Lesson1.stdDelimiters } : Lesson1.EDIFACTSegment).Tag ::
      ({ Tag := "FTX".toList, Elements := [['?', '?']],
         Delimiters := Lesson1.stdDelimiters } : Lesson1.EDIFACTSegment).Elements =
      GoStrings.Split
        (GoStrings.TrimSuffix ("FTX+??".toList ++ [apos])
          Lesson1.stdDelimiters.SegmentTerminator)
        Lesson1.stdDelimiters.DataElementSeparator :=
  C6_tokens_stored_verbatim.1 ("FTX+??".toList ++ [apos]) Lesson1.stdDelimiters
    { Tag := "FTX".toList, Elements := [['?', '?']],
      Delimiters := Lesson1.stdDelimiters } (by decide)

/-- Claim C1 counterexample: for `s = "+"` — a string consisting of a
delimiter character — escaping, then tokenizing at the element
separator as `ParseSegment` does, then unescaping each token does not
return `s`: the escaped text `?+` is split *at the escaped delimiter*,
yielding the two tokens `?` and `` instead of the single token `+`. -/
theorem C1_counterexample :
    '+' ∈ ['+'] ∧
    Lesson1.escapeTokenizeUnescape ['+'] Lesson1.stdDelimiters = [['?'], []] ∧
    Lesson1.escapeTokenizeUnescape ['+'] Lesson1.stdDelimiters ≠ [['+']] := by
  exact ⟨by decide, by decide, by decide⟩

/-- Claim C1 amended: `strings.Split` knows nothing about the release
character, so for every string containing the element separator the
escape → tokenize → unescape pipeline splits at the (escaped)
separator, produces at least two tokens, and therefore never returns
the original string as its single token. -/
theorem C1_tokenizer_splits_at_escaped_delimiter (s : Str) (h : '+' ∈ s) :
    2 ≤ (Lesson1.escapeTokenizeUnescape s Lesson1.stdDelimiters).length ∧
    Lesson1.escapeTokenizeUnescape s Lesson1.stdDelimiters ≠ [s] := by
  have hesc : Lesson1.EscapeSpecialCharacters s Lesson1.stdDelimiters =
      GoStrings.ReplaceAll (GoStrings.ReplaceAll (GoStrings.ReplaceAll
        (GoStrings.ReplaceAll s ['?'] ['?', '?']) ['+'] ['?', '+'])
        [':'] ['?', ':']) [apos] ['?', apos] := rfl
  have h1 : '+' ∈ GoStrings.ReplaceAll s ['?'] ['?', '?'] :=
    GoStrings.mem_ReplaceAll_single s '?' _ '+'
      (fun he => absurd he (by decide)) h
  have h2 : '+' ∈ GoStrings.ReplaceAll
      (GoStrings.ReplaceAll s ['?'] ['?', '?']) ['+'] ['?', '+'] :=
    GoStrings.mem_ReplaceAll_single _ '+' _ '+' (fun _ => by decide) h1
  have h3 : '+' ∈ GoStrings.ReplaceAll (GoStrings.ReplaceAll
      (GoStrings.ReplaceAll s ['?'] ['?', '?']) ['+'] ['?', '+'])
      [':'] ['?', ':'] :=
    GoStrings.mem_ReplaceAll_single _ ':' _ '+'
      (fun he => absurd he (by decide)) h2
  have h4 : '+' ∈ Lesson1.EscapeSpecialCharacters s Lesson1.stdDelimiters := by
    rw [hesc]
    exact GoStrings.mem_ReplaceAll_single _ apos _ '+'
      (fun he => absurd he (by decide)) h3
  have hsplit : 2 ≤ (GoStrings.Split
      (Lesson1.EscapeSpecialCharacters s Lesson1.stdDelimiters) ['+']).length :=
    GoStrings.two_le_Split_of_mem '+' _ h4
  have hlen : (Lesson1.escapeTokenizeUnescape s Lesson1.stdDelimiters).length =
      (GoStrings.Split (Lesson1.EscapeSpecialCharacters s Lesson1.stdDelimiters)
        ['+']).length := by
    simp [Lesson1.escapeTokenizeUnescape, Lesson1.stdDelimiters]
  constructor
  · rw [hlen]
    exact hsplit
  · intro heq
    have hone : (Lesson1.escapeTokenizeUnescape s Lesson1.stdDelimiters).length = 1 := by
      rw [heq]
      rfl
    rw [hlen] at hone
    omega

/-- Claim C1 witness: the amended statement at the concrete string
`A+B`, which contains the element separator. -/
theorem C1_witness :
    '+' ∈ ("A+B".toList) ∧
    2 ≤ (Lesson1.escapeTokenizeUnescape ("A+B".toList) Lesson1.stdDelimiters).length ∧
    Lesson1.escapeTokenizeUnescape ("A+B".toList) Lesson1.stdDelimiters ≠
      [("A+B".toList)] := by
  have h := C1_tokenizer_splits_at_escaped_delimiter ("A+B".toList) (by decide)
  exact ⟨by decide, h.1, h.2⟩

/-- Claim C2 counterexample: two handlers for `ORDERS`, `handlerOne`
registered before `handlerTwo`.  Dispatch invokes the handler
registered *last*: the result is `handlerTwo`'s error, not
`handlerOne`'s — the map assignment in `RegisterHandler` overwrote the
earlier registration, so the first-registered handler is never
invoked. -/
theorem C2_counterexample :
    Lesson2.DetectAndRoute
      (Lesson2.RegisterHandler
        (Lesson2.RegisterHandler Lesson2.NewMessageDetector ("ORDERS".toList)
          Lesson2.handlerOne)
        ("ORDERS".toList) Lesson2.handlerTwo)
      Lesson2.ordersMessage = some ("handler-two".toList) ∧
    some ("handler-two".toList) ≠ Lesson2.handlerOne.Process Lesson2.ordersMessage := by
  refine ⟨rfl, ?_⟩
  intro he
  simp [Lesson2.handlerOne] at he

/-- Claim C2 amended: when two handlers are registered for the same
message type, registration order is resolved by overwriting — the
handler registered *last* wins, and dispatch of a message of that type
returns exactly its `Process` result, independently of the
first-registered handler (which appears nowhere in the result). -/
theorem C2_last_registration_wins (md : Lesson2.MessageDetector) (msgType : Str)
    (hA hB : Lesson2.MessageHandler) (message : Lesson2.EDIFACTMessage)
    (h : message.MessageType = msgType) :
    Lesson2.DetectAndRoute
      (Lesson2.RegisterHandler (Lesson2.RegisterHandler md msgType hA) msgType hB)
      message = hB.Process message := by
  simp [Lesson2.DetectAndRoute, Lesson2.RegisterHandler, h]

/-- Claim C2 witness: the amended statement at the concrete ORDERS
message and the two concrete ORDERS handlers. -/
theorem C2_witness :
    Lesson2.ordersMessage.MessageType = ("ORDERS".toList) ∧
    Lesson2.DetectAndRoute
      (Lesson2.RegisterHandler
        (Lesson2.RegisterHandler Lesson2.NewMessageDetector ("ORDERS".toList)
          Lesson2.handlerOne)
        ("ORDERS".toList) Lesson2.handlerTwo)
      Lesson2.ordersMessage = Lesson2.handlerTwo.Process Lesson2.ordersMessage :=
  ⟨rfl, C2_last_registration_wins Lesson2.NewMessageDetector ("ORDERS".toList)
    Lesson2.handlerOne Lesson2.handlerTwo Lesson2.ordersMessage rfl⟩

/-- Claim C4: when the detected message type has no registered handler
(in particular when the registry is empty) and the fallback is the
built-in `GenericHandler`, dispatch returns no error: the generic
handler's `Process` succeeds on every message. -/
theorem C4_fallback_never_errors (md : Lesson2.MessageDetector)
    (message : Lesson2.EDIFACTMessage)
    (hmiss : md.handlers message.MessageType = none)
    (hfb : md.fallback = Lesson2.GenericHandler) :
    Lesson2.DetectAndRoute md message = none := by
  simp [Lesson2.DetectAndRoute, hmiss, hfb, Lesson2.GenericHandler]

/-- Claim C4 witness: dispatching a message on a freshly created (empty)
detector returns no error. -/
theorem C4_witness :
    Lesson2.NewMessageDetector.handlers Lesson2.ordersMessage.MessageType = none ∧
    Lesson2.NewMessageDetector.fallback = Lesson2.GenericHandler ∧
    Lesson2.DetectAndRoute Lesson2.NewMessageDetector Lesson2.ordersMessage = none :=
  ⟨rfl, rfl,
    C4_fallback_never_errors Lesson2.NewMessageDetector Lesson2.ordersMessage rfl rfl⟩

/-- Claim C8: when the lookup selects a handler for the message and
that handler's `Process` fails with an error, `DetectAndRoute` returns
exactly that error — unmodified, with no other handler and no fallback
involved in the result. -/
theorem C8_handler_error_propagates (md : Lesson2.MessageDetector)
    (message : Lesson2.EDIFACTMessage) (handler : Lesson2.MessageHandler)
    (err : Str)
    (hsel : md.handlers message.MessageType = some handler)
    (herr : handler.Process message = some err) :
    Lesson2.DetectAndRoute md message = some err := by
  simp [Lesson2.DetectAndRoute, hsel, herr]

/-- Claim C8 witness: the failing `handlerOne` registered for ORDERS
propagates its error `handler-one` to the dispatch caller. -/
theorem C8_witness :
    (Lesson2.RegisterHandler Lesson2.NewMessageDetector ("ORDERS".toList)
      Lesson2.handlerOne).handlers Lesson2.ordersMessage.MessageType =
      some Lesson2.handlerOne ∧
    Lesson2.DetectAndRoute
      (Lesson2.RegisterHandler Lesson2.NewMessageDetector ("ORDERS".toList)
        Lesson2.handlerOne)
      Lesson2.ordersMessage = some ("handler-one".toList) :=
  ⟨rfl, C8_handler_error_propagates _ _ Lesson2.handlerOne ("handler-one".toList)
    rfl rfl⟩

/-- Claim C3 counterexample: for a UNH segment whose type descriptor
has components `INVOIC:D:97A:UN`, extraction returns type `INVOIC` but
`Release = 97A` (the *third* component, which the claim calls the
version) and `Version = UN` (the *fourth* component, the controlling
agency); it does not return release `D` or version `97A`, and
`ServiceSegmentInfo` has no controlling-agency field at all. -/
theorem C3_counterexample :
    (Lesson6.extractServiceSegmentInfo
      { Tag := "UNH".toList
        Elements := ["1".toList, "INVOIC:D:97A:UN".toList]
        Position := 0
        Raw := [] }).MessageType = ("INVOIC".toList) ∧
    (Lesson6.extractServiceSegmentInfo
      { Tag := "UNH".toList
        Elements := ["1".toList, "INVOIC:D:97A:UN".toList]
        Position := 0
        Raw := [] }).Release = ("97A".toList) ∧
    (Lesson6.extractServiceSegmentInfo
      { Tag := "UNH".toList
        Elements := ["1".toList, "INVOIC:D:97A:UN".toList]
        Position := 0
        Raw := [] }).Version = ("UN".toList) ∧
    (Lesson6.extractServiceSegmentInfo
      { Tag := "UNH".toList
        Elements := ["1".toList, "INVOIC:D:97A:UN".toList]
        Position := 0
        Raw := [] }).Release ≠ ("D".toList) ∧
    (Lesson6.extractServiceSegmentInfo
      { Tag := "UNH".toList
        Elements := ["1".toList, "INVOIC:D:97A:UN".toList]
        Position := 0
        Raw := [] }).Version ≠ ("97A".toList) := by
  exact ⟨by decide, by decide, by decide, by decide, by decide⟩

/-- Claim C3 amended: for every UNH segment whose type descriptor
splits into exactly four components `[t, r, v, a]`, extraction returns
`MessageType = t` (the first component), `Release = v` (the *third*
component), and `Version = a` (the *fourth* component); the second
component `r` is never read, no controlling agency is extracted, and
the first element lands in `ReferenceNumber`. -/
theorem C3_release_version_shifted (t r v a ref raw el : Str) (pos : Nat)
    (h : GoStrings.Split el [':'] = [t, r, v, a]) :
    (Lesson6.extractServiceSegmentInfo
      { Tag := "UNH".toList, Elements := [ref, el], Position := pos,
        Raw := raw }).MessageType = t ∧
    (Lesson6.extractServiceSegmentInfo
      { Tag := "UNH".toList, Elements := [ref, el], Position := pos,
        Raw := raw }).Release = v ∧
    (Lesson6.extractServiceSegmentInfo
      { Tag := "UNH".toList, Elements := [ref, el], Position := pos,
        Raw := raw }).Version = a ∧
    (Lesson6.extractServiceSegmentInfo
      { Tag := "UNH".toList, Elements := [ref, el], Position := pos,
        Raw := raw }).ReferenceNumber = ref := by
  simp [Lesson6.extractServiceSegmentInfo, h, List.getD]

/-- Claim C3 witness: the amended statement at the header element
`INVOIC:D:97A:UN` of the tutorial message. -/
theorem C3_witness :
    GoStrings.Split ("INVOIC:D:97A:UN".toList) [':'] =
      ["INVOIC".toList, "D".toList, "97A".toList, "UN".toList] ∧
    (Lesson6.extractServiceSegmentInfo
      { Tag := "UNH".toList, Elements := ["1".toList, "INVOIC:D:97A:UN".toList],
        Position := 0, Raw := [] }).Release = ("97A".toList) :=
  ⟨by decide,
    (C3_release_version_shifted ("INVOIC".toList) ("D".toList) ("97A".toList)
      ("UN".toList) ("1".toList) [] ("INVOIC:D:97A:UN".toList) 0 (by decide)).2.1⟩
